import Mathlib

/-!
Shallow embedding of the sqlbee mutating admission webhook
(`cmd/sqlbee/mutate.go` and `pkg/sting/sting.go`) and proofs about it.

The embedding keeps the Go source's names where Lean allows it.  Go slices
that are removed from while being ranged over (the volume-removal loop of
`mutatePodSpec` and the denylist filter of `CreatePatch`) are modelled with
their exact Go semantics: the range clause snapshots the slice header once,
`append(s[:i], s[i+1:]...)` shifts the shared backing array in place, and a
slice expression `s[i+1:]` with `i+1 > len(s)` panics.  A Go panic is
modelled as `none`.
-/

namespace SqlBee

/-! ### Kubernetes data model (the fields the webhook reads or writes) -/

structure VolumeMount where
  mountPath : String
  name : String
deriving DecidableEq, Repr

/-- The volume sources the webhook constructs or copies. -/
inductive VolumeSource where
  | emptyDir
  | secret (secretName : String)
  | configMap (name : String)
deriving DecidableEq, Repr

structure Volume where
  name : String
  source : VolumeSource
deriving DecidableEq, Repr

structure Container where
  image : String
  command : List String
  volumeMounts : List VolumeMount
  name : String
deriving DecidableEq, Repr

structure PodSpec where
  containers : List Container
  volumes : List Volume
deriving DecidableEq, Repr

/-! ### Go loop semantics

`goShiftRemove arr i len` is the effect of `s = append(s[:i], s[i+1:]...)`
on the backing array `arr` of a slice whose current length is `len`:
the elements of the window `[i+1, len)` are copied one slot to the left and
everything outside the window (including the stale tail `[len, arr.length)`)
is untouched, so the element previously at `len - 1` now appears twice. -/
def goShiftRemove {α : Type} (arr : List α) (i len : Nat) : List α :=
  arr.take i ++ (arr.drop (i + 1)).take (len - (i + 1)) ++ arr.drop (len - 1)

/-- One step of the pattern
`for i, v := range s { if pred(v) { s = append(s[:i], s[i+1:]...) } }`.
`fuel` counts the remaining iterations of the snapshotted range (Go fixes
the iteration count when the loop starts), `i` is the current index into the
shared backing array `arr`, and `len` is the current slice length.  Reading
`arr[i]` with `i ≥ len` is a stale read, legal in Go; but then the removal's
`s[i+1:]` has `i+1 > len(s)` and panics, modelled by `none`. -/
def goRemoveAux {α : Type} (pred : α → Bool) :
    Nat → Nat → List α → Nat → Option (List α × Nat)
  | 0, _, arr, len => some (arr, len)
  | fuel + 1, i, arr, len =>
    match arr[i]? with
    | none => some (arr, len)
    | some v =>
      if pred v then
        if i < len then
          goRemoveAux pred fuel (i + 1) (goShiftRemove arr i len) (len - 1)
        else none
      else goRemoveAux pred fuel (i + 1) arr len

/-- One full Go `for i, v := range s`-pass that removes elements matching
`pred` via `append(s[:i], s[i+1:]...)`.  Returns the resulting slice
contents, or `none` when the loop panics. -/
def goRemovePass {α : Type} (pred : α → Bool) (xs : List α) : Option (List α) :=
  (goRemoveAux pred xs.length 0 xs xs.length).map fun p => p.1.take p.2

/-! ### Sidecar template constants (`cmd/sqlbee/mutate.go`) -/

def annotationBase : String := "sqlbee.connctd.io."
def annotationInject : String := annotationBase ++ "inject"
def annotationImage : String := annotationBase ++ "image"
def annotationInstance : String := annotationBase ++ "instance"
def annotationSecret : String := annotationBase ++ "secret"
def annotationCaMap : String := annotationBase ++ "caMap"

def imageName : String := "gcr.io/cloudsql-docker/gce-proxy"
def imageTag : String := "1.13"
def defaultImage : String := imageName ++ ":" ++ imageTag

def sqlProxyCmd : List String := ["/cloud_sql_proxy", "-dir=/cloudsql"]

def credentialMount : VolumeMount :=
  { mountPath := "/credentials", name := "sql-service-token-account" }

def caCertMount : VolumeMount :=
  { mountPath := "/etc/ssl/certs", name := "ca-certificates" }

def sqlProxyContainer : Container :=
  { image := defaultImage
    command := sqlProxyCmd
    volumeMounts := [{ mountPath := "/cloudsql", name := "cloudsql" }]
    name := "cloud-sql-proxy" }

def credentialsVolume : Volume :=
  { name := "sql-service-token-account"
    source := VolumeSource.secret "cloud-sql-proxy-credentials" }

def caCertVolume : Volume :=
  { name := "sql-ca-certificates"
    source := VolumeSource.configMap "ca-certificates" }

def sqlProxyVolumes : List Volume :=
  [{ name := "cloudsql", source := VolumeSource.emptyDir }]

def ignoredNamespaces : List String := ["kube-system", "kube-public"]

/-- Injection options (`Options` in `cmd/sqlbee/mutate.go`). -/
structure Options where
  DefaultInstance : String
  DefaultSecretName : String
  DefaultCertVolume : String
  RequireAnnotation : Bool
deriving DecidableEq, Repr

/-! ### Pod spec mutation (`mutatePodSpec`) -/

/-- Condition of the volume-removal loop in `mutatePodSpec`. -/
def reservedVolumeName (name : String) : Bool :=
  name == "cloudsql" || name == "sql-service-token-account" ||
    name == "sql-ca-certificates"

/-- The container loop of `mutatePodSpec`: it removes the first container
whose image or name matches the proxy container and then breaks. -/
def removeProxyContainer (proxyContainer : Container) :
    List Container → List Container
  | [] => []
  | c :: rest =>
    if c.image == proxyContainer.image || c.name == proxyContainer.name then rest
    else c :: removeProxyContainer proxyContainer rest

/-- `mutatePodSpec` from `cmd/sqlbee/mutate.go`: removes an existing proxy
container (first match, then break) and appends the fresh one; removes
reserved volumes with a remove-while-ranging loop (Go semantics, may
panic = `none`) and appends the fresh volume list. -/
def mutatePodSpec (volumes : List Volume) (proxyContainer : Container)
    (podSpec : PodSpec) : Option PodSpec :=
  let containers := removeProxyContainer proxyContainer podSpec.containers ++ [proxyContainer]
  (goRemovePass (fun v => reservedVolumeName v.name) podSpec.volumes).map fun kept =>
    { containers := containers, volumes := kept ++ volumes }

/-! ### Annotation helpers (`pkg/sting/sting.go`) -/

/-- Annotations of a resource, as the key-value pairs of its metadata
annotation map (`getAnnotations` returns the resource's annotation map,
or an empty map). -/
def Annotations : Type := List (String × String)

/-- `AnnotationHasValue`: the annotation exists and equals `val` exactly. -/
def AnnotationHasValue (ann : List (String × String)) (key val : String) : Bool :=
  match ann.lookup key with
  | some v => v == val
  | none => false

/-- `AnnotationValue` with its Go variadic default parameter: with no
default the zero value `""` of a missing map entry is returned, otherwise
the first default is returned when the key is absent. -/
def AnnotationValue (ann : List (String × String)) (key : String)
    (dflt : List String) : String :=
  match dflt with
  | [] => (ann.lookup key).getD ""
  | d :: _ =>
    match ann.lookup key with
    | some v => v
    | none => d

/-- `configureContainerAndVolumes`: resolves image, instance, secret and CA
config map from annotations with process defaults, extends mounts, volumes
and the command accordingly, and always appends the instance flag last. -/
def configureContainerAndVolumes (ann : List (String × String))
    (c0 : Container) (vols0 : List Volume) (opts : Options) :
    Container × List Volume :=
  let image := AnnotationValue ann annotationImage [defaultImage]
  let c1 : Container := { c0 with image := image }
  let instanceStr := AnnotationValue ann annotationInstance [opts.DefaultInstance]
  let secretName := AnnotationValue ann annotationSecret [opts.DefaultSecretName]
  let step1 : Container × List Volume × List String :=
    if secretName = "" then (c1, vols0, sqlProxyCmd)
    else
      ({ c1 with volumeMounts := c1.volumeMounts ++ [credentialMount] },
       vols0 ++ [{ credentialsVolume with source := VolumeSource.secret secretName }],
       sqlProxyCmd ++ ["-credential_file=/credentials/credentials.json"])
  let caConfigName := AnnotationValue ann annotationCaMap [opts.DefaultCertVolume]
  let step2 : Container × List Volume × List String :=
    if caConfigName = "" then step1
    else
      ({ step1.1 with volumeMounts := step1.1.volumeMounts ++ [caCertMount] },
       step1.2.1 ++ [{ caCertVolume with source := VolumeSource.configMap caConfigName }],
       step1.2.2)
  let cmd := step2.2.2 ++ ["-instances=" ++ instanceStr ++ "=tcp:127.0.0.1:3306"]
  ({ step2.1 with command := cmd }, step2.2.1)

/-! ### Patch computer (`CreatePatch` in `pkg/sting/sting.go`)

The RFC 6902 diff itself is produced by the external `mattbaird/jsonpatch`
library, which is not part of this repository; its output is modelled as an
arbitrary list of patch operations handed to the filtering and marshalling
code that *is* in the repository. -/

/-- JSON values, used for the payload of a patch operation and for the
marshalled form of a patch document. -/
inductive Json where
  | null
  | bool (b : Bool)
  | num (n : Int)
  | str (s : String)
  | arr (elems : List Json)
  | obj (fields : List (String × Json))

/-- The operations `mattbaird/jsonpatch.CreatePatch` emits. -/
inductive PatchOpKind where
  | add
  | remove
  | replace
deriving DecidableEq, Repr

/-- One JSON Patch operation (`jsonpatch.JsonPatchOperation`). -/
structure PatchOp where
  op : PatchOpKind
  path : String
  value : Json

def patchOpName : PatchOpKind → String
  | .add => "add"
  | .remove => "remove"
  | .replace => "replace"

/-- JSON marshalling of one patch operation (a `remove` carries no value). -/
def marshalPatchOp (p : PatchOp) : Json :=
  match p.op with
  | .remove => Json.obj [("op", Json.str "remove"), ("path", Json.str p.path)]
  | _ => Json.obj [("op", Json.str (patchOpName p.op)), ("path", Json.str p.path),
      ("value", p.value)]

/-- JSON marshalling of a patch operation list, the document `json.Marshal`
produces for the filtered patch. -/
def marshalPatch (ops : List PatchOp) : Json :=
  Json.arr (ops.map marshalPatchOp)

/-- The six operation names RFC 6902 permits. -/
def isRFC6902OpName (s : String) : Bool :=
  s == "add" || s == "remove" || s == "replace" || s == "move" || s == "copy" ||
    s == "test"

/-- A JSON value is a syntactically valid RFC 6902 patch operation: an
object with an `op` member naming one of the six operations and a string
`path` member. -/
def isValidPatchOperation : Json → Bool
  | Json.obj fields =>
    (match fields.lookup "op" with
     | some (Json.str s) => isRFC6902OpName s
     | _ => false) &&
    (match fields.lookup "path" with
     | some (Json.str _) => true
     | _ => false)
  | _ => false

/-- A JSON value is a syntactically valid RFC 6902 patch document: an array
of valid operations. -/
def isValidPatchDoc : Json → Bool
  | Json.arr elems => elems.all isValidPatchOperation
  | _ => false

/-- `ignoredPatchPaths` from `pkg/sting/sting.go`. -/
def ignoredPatchPaths : List String :=
  ["/spec/template/metadata/creationTimestamp", "/status",
   "/metadata/creationTimestamp"]

/-- The denylist filter of `CreatePatch`: for every ignored path one Go
remove-while-ranging pass over the patch slice.  `none` models a panic. -/
def filterPatchOps (ops : List PatchOp) : Option (List PatchOp) :=
  ignoredPatchPaths.foldl
    (fun acc path => acc.bind (goRemovePass (fun p => p.path == path)))
    (some ops)

/-- `CreatePatch`, applied to the raw diff produced by the external
jsonpatch library.  The outer `Option` models a Go panic inside the filter
loop; the inner `Option` models the returned patch bytes, where `none` is
the `nil, nil` return taken when the *unfiltered* diff is empty and
`some ops` is `json.Marshal` of the filtered operation slice (which is the
two-byte document for an empty slice, not nil). -/
def CreatePatch (rawDiff : List PatchOp) : Option (Option (List PatchOp)) :=
  if rawDiff.length > 0 then (filterPatchOps rawDiff).map some
  else some none

/-! ### Admission mutate function (`Mutate` in `cmd/sqlbee/mutate.go`) -/

structure GroupVersionResource where
  group : String
  version : String
  resource : String
deriving DecidableEq, Repr

def podResource : GroupVersionResource :=
  { group := "", version := "v1", resource := "pods" }

/-- A decoded target resource.  Pods and deployments both expose metadata
annotations and one pod spec (the deployment's `Spec.Template.Spec`), which
is all the mutation logic reads or writes. -/
structure KubeObject where
  annotations : List (String × String)
  spec : PodSpec
deriving DecidableEq, Repr

/-- The raw payload of an admission request: a byte blob that the universal
deserializer can decode as a pod, as a deployment, or not at all. -/
inductive RawObject where
  | podRaw (o : KubeObject)
  | deploymentRaw (o : KubeObject)
  | malformed
deriving DecidableEq, Repr

structure AdmissionRequest where
  reqNamespace : String
  resource : GroupVersionResource
  object : RawObject
deriving DecidableEq, Repr

/-- An admission response as `Mutate` builds it: `patch` is `none` when the
`Patch` field stays nil and `some ops` when it is set to the marshalled
operation list; `patchTypeSet` mirrors whether `PatchType` was set. -/
structure AdmissionResponse where
  allowed : Bool
  message : Option String
  patch : Option (List PatchOp)
  patchTypeSet : Bool

/-- The zero-value `v1beta1.AdmissionResponse{}`. -/
def emptyResponse : AdmissionResponse :=
  { allowed := false, message := none, patch := none, patchTypeSet := false }

/-- The response returned on the allow-without-mutation paths. -/
def allowedNoPatch : AdmissionResponse :=
  { emptyResponse with allowed := true }

/-- `ToAdmissionResponse`: a response carrying only the error message
(`Allowed` keeps its zero value `false`). -/
def ToAdmissionResponse (msg : String) : AdmissionResponse :=
  { emptyResponse with message := some msg }

def WrongResourceErrorMsg : String := "Wrong resource type"

def instanceErrorMsg : String :=
  "Instance is not specified via defaults or via annotation " ++ annotationInstance

/-- Stands for whatever message the universal deserializer's error carries
when the payload cannot be decoded as the dispatched kind. -/
def decodeErrorMsg : String := "could not decode object"

/-- The resource-type dispatch of `Mutate`: a pod exactly on equality with
`podResource`, otherwise a deployment exactly when the resource name is
`"deployments"`, otherwise unsupported. -/
inductive ResourceKind where
  | pod
  | deployment
  | unsupported
deriving DecidableEq, Repr

def classifyResource (gvr : GroupVersionResource) : ResourceKind :=
  if gvr = podResource then ResourceKind.pod
  else if gvr.resource = "deployments" then ResourceKind.deployment
  else ResourceKind.unsupported

/-- Decoding the raw payload as the dispatched kind. -/
def decodeAs (kind : ResourceKind) (raw : RawObject) : Option KubeObject :=
  match kind, raw with
  | ResourceKind.pod, RawObject.podRaw o => some o
  | ResourceKind.deployment, RawObject.deploymentRaw o => some o
  | _, _ => none

/-- The annotation gate: skip mutation (allow without patch) when the
inject annotation check says so. -/
def gateSkips (opts : Options) (ann : List (String × String)) : Bool :=
  (opts.RequireAnnotation && !(AnnotationHasValue ann annotationInject "true")) ||
  (!opts.RequireAnnotation && AnnotationHasValue ann annotationInject "false")

/-- Control-flow outcome of one `Mutate` call, before the patch is diffed
and rendered into the admission response. -/
inductive Outcome where
  | ignoredNamespace
  | wrongResource
  | decodeFailed
  | gateSkipped
  | noInstance
  | mutated (obj : KubeObject) (mutatedSpec : PodSpec)
  | panicked
deriving DecidableEq, Repr

/-- The stages of `Mutate` after the annotation gate: instance validation,
sidecar configuration and pod-spec mutation. -/
def postGate (opts : Options) (obj : KubeObject) : Outcome :=
  if AnnotationValue obj.annotations annotationInstance [opts.DefaultInstance] = "" then
    Outcome.noInstance
  else
    let cv := configureContainerAndVolumes obj.annotations sqlProxyContainer
      sqlProxyVolumes opts
    match mutatePodSpec cv.2 cv.1 obj.spec with
    | none => Outcome.panicked
    | some mutatedSpec => Outcome.mutated { obj with spec := mutatedSpec } mutatedSpec

/-- The control flow of `Mutate` in source order: namespace exclusion,
resource dispatch and decoding, annotation gate, then `postGate`. -/
def mutateOutcome (opts : Options) (req : AdmissionRequest) : Outcome :=
  if ignoredNamespaces.contains req.reqNamespace then Outcome.ignoredNamespace
  else if classifyResource req.resource = ResourceKind.unsupported then
    Outcome.wrongResource
  else
    match decodeAs (classifyResource req.resource) req.object with
    | none => Outcome.decodeFailed
    | some obj =>
      if gateSkips opts obj.annotations then Outcome.gateSkipped
      else postGate opts obj

/-- A diff function standing for the composition of `Marshaler.Encode` on
the mutated object with `jsonpatch.CreatePatch` against the original raw
bytes (both external collaborators). -/
def DiffFn : Type := RawObject → KubeObject → List PatchOp

/-- The response `Mutate` builds when `CreatePatch` returned patch bytes:
`Allowed` is true and both `Patch` and `PatchType` are set. -/
def mkPatchResponse (ops : List PatchOp) : AdmissionResponse :=
  { allowed := true, message := none, patch := some ops, patchTypeSet := true }

/-- Rendering an outcome into the admission response, including the
`len(patchBytes) > 0` guard: the patch type and patch are set exactly when
`CreatePatch` returned non-nil bytes.  `none` models a Go panic. -/
def renderOutcome (diffFn : DiffFn) (req : AdmissionRequest) :
    Outcome → Option AdmissionResponse
  | Outcome.ignoredNamespace => some allowedNoPatch
  | Outcome.wrongResource => some (ToAdmissionResponse WrongResourceErrorMsg)
  | Outcome.decodeFailed => some (ToAdmissionResponse decodeErrorMsg)
  | Outcome.gateSkipped => some allowedNoPatch
  | Outcome.noInstance => some (ToAdmissionResponse instanceErrorMsg)
  | Outcome.panicked => none
  | Outcome.mutated obj _ =>
    match CreatePatch (diffFn req.object obj) with
    | none => none
    | some none => some allowedNoPatch
    | some (some ops) => some (mkPatchResponse ops)

/-- The `sting.MutateFunc` returned by `Mutate(opts)`, applied to one
admission request. -/
def Mutate (diffFn : DiffFn) (opts : Options) (req : AdmissionRequest) :
    Option AdmissionResponse :=
  renderOutcome diffFn req (mutateOutcome opts req)

/-! ### Concrete scenarios used to evaluate the code -/

def preexistingTokenVolume : Volume :=
  { name := "sql-service-token-account", source := VolumeSource.secret "old-credentials" }

def appVolume : Volume := { name := "app-data", source := VolumeSource.emptyDir }

/-- A pod spec that already carries the sidecar-owned `cloudsql` and
`sql-service-token-account` volumes (adjacent), followed by an application
volume. -/
def dupDemoPodSpec : PodSpec :=
  { containers := []
    volumes := [{ name := "cloudsql", source := VolumeSource.emptyDir },
      preexistingTokenVolume, appVolume] }

/-- A pod spec whose two trailing volumes are sidecar-owned. -/
def panicDemoPodSpec : PodSpec :=
  { containers := []
    volumes := [appVolume, { name := "cloudsql", source := VolumeSource.emptyDir },
      preexistingTokenVolume] }

/-- Options with a credential secret configured, so that the sidecar's
volume set contains both `cloudsql` and `sql-service-token-account`. -/
def dupDemoOpts : Options :=
  { DefaultInstance := "proj:region:db", DefaultSecretName := "proxy-credentials",
    DefaultCertVolume := "", RequireAnnotation := false }

/-- The sidecar container and volume set built for `dupDemoOpts` with no
overriding annotations. -/
def dupDemoSidecar : Container × List Volume :=
  configureContainerAndVolumes [] sqlProxyContainer sqlProxyVolumes dupDemoOpts

/-- Containers of which the first matches the sidecar's reserved name and
the second matches its image. -/
def twoMatchContainers : List Container :=
  [{ image := "other-image:1", command := [], volumeMounts := [], name := "cloud-sql-proxy" },
   { image := defaultImage, command := [], volumeMounts := [], name := "app" }]

/-- A diff consisting of one denylisted operation only. -/
def statusPatchOp : PatchOp :=
  { op := PatchOpKind.replace, path := "/status", value := Json.null }

def onlyStatusDiff : DiffFn := fun _ _ => [statusPatchOp]

/-- A diff consisting of one non-denylisted operation. -/
def addContainerOp : PatchOp :=
  { op := PatchOpKind.add, path := "/spec/containers/1", value := Json.null }

def singleAddDiff : DiffFn := fun _ _ => [addContainerOp]

/-- A pod carrying only the inject annotation, set to `"true"`. -/
def injectTruePod : KubeObject :=
  { annotations := [(annotationInject, "true")]
    spec := { containers := [], volumes := [] } }

def defaultPodRequest : AdmissionRequest :=
  { reqNamespace := "default", resource := podResource,
    object := RawObject.podRaw injectTruePod }

/-- Options configuring only a default instance. -/
def instanceOnlyOpts : Options :=
  { DefaultInstance := "proj:region:db", DefaultSecretName := "",
    DefaultCertVolume := "", RequireAnnotation := false }

/-- The application container of the end-to-end scenario. -/
def wordpressContainer : Container :=
  { image := "wordpress:4.8-apache", command := []
    volumeMounts := [{ mountPath := "/var/www/html", name := "wordpress-persistent-storage" }]
    name := "wordpress" }

def wordpressVolume : Volume :=
  { name := "wordpress-persistent-storage", source := VolumeSource.emptyDir }

/-- A bare pod with `inject=true` and no credential or CA overrides. -/
def barePod : KubeObject :=
  { annotations := [(annotationInject, "true")]
    spec := { containers := [wordpressContainer], volumes := [wordpressVolume] } }

def barePodOpts : Options :=
  { DefaultInstance := "proj:region:instance", DefaultSecretName := "",
    DefaultCertVolume := "", RequireAnnotation := false }

def barePodRequest : AdmissionRequest :=
  { reqNamespace := "default", resource := podResource,
    object := RawObject.podRaw barePod }

/-- The sidecar the end-to-end scenario injects. -/
def expectedSidecar : Container :=
  { image := defaultImage
    command := ["/cloud_sql_proxy", "-dir=/cloudsql",
      "-instances=proj:region:instance=tcp:127.0.0.1:3306"]
    volumeMounts := [{ mountPath := "/cloudsql", name := "cloudsql" }]
    name := "cloud-sql-proxy" }

def expectedMutatedSpec : PodSpec :=
  { containers := barePod.spec.containers ++ [expectedSidecar]
    volumes := barePod.spec.volumes ++ sqlProxyVolumes }

def expectedMutatedObj : KubeObject := { barePod with spec := expectedMutatedSpec }

/-- The sidecar injected for `instanceOnlyOpts` with no overriding
annotations. -/
def statusDemoSidecar : Container :=
  { image := defaultImage
    command := ["/cloud_sql_proxy", "-dir=/cloudsql",
      "-instances=proj:region:db=tcp:127.0.0.1:3306"]
    volumeMounts := [{ mountPath := "/cloudsql", name := "cloudsql" }]
    name := "cloud-sql-proxy" }

def statusDemoMutatedSpec : PodSpec :=
  { containers := [statusDemoSidecar], volumes := sqlProxyVolumes }

def statusDemoMutatedObj : KubeObject :=
  { injectTruePod with spec := statusDemoMutatedSpec }

/-- Modelled from the repository's test fixture `expectedPodPatches` in
`cmd/sqlbee/mutate_test.go`: the operation shape of the JSON Patch the
pinned serializer and jsonpatch library produce for the bare-pod scenario.
Because the re-encoded pod differs from the client's raw bytes on
serializer-defaulted fields (the fixture's re-added container carries a
defaulted empty `resources` object), the array diff rewrites the
pre-existing container in place — it removes `/spec/containers/0` and adds
it back — before adding the sidecar as `/spec/containers/1`.  The
operations' `value` payloads are the serializer's full container and
volume serializations; they are irrelevant to which paths are removed or
re-added, so they are not reproduced here. -/
def fixturePodPatchOps : List PatchOp :=
  [{ op := PatchOpKind.add, path := "/spec/volumes/1",
     value := Json.obj [("emptyDir", Json.obj []), ("name", Json.str "cloudsql")] },
   { op := PatchOpKind.remove, path := "/spec/containers/0", value := Json.null },
   { op := PatchOpKind.add, path := "/spec/containers/0", value := Json.null },
   { op := PatchOpKind.add, path := "/spec/containers/1", value := Json.null }]

/-- The diff the recorded fixture documents for the bare-pod request. -/
def fixtureBarePodDiff : DiffFn := fun _ _ => fixturePodPatchOps

end SqlBee


namespace SqlBee

theorem goRemoveAux_zero {α : Type} (pred : α → Bool) (i : Nat) (arr : List α) (len : Nat) :
    goRemoveAux pred 0 i arr len = some (arr, len) := rfl

theorem goRemoveAux_none {α : Type} (pred : α → Bool) (f i : Nat) (arr : List α) (len : Nat)
    (h : arr[i]? = none) : goRemoveAux pred (f + 1) i arr len = some (arr, len) := by
  conv_lhs => unfold goRemoveAux
  rw [h]

theorem goRemoveAux_skip_step {α : Type} (pred : α → Bool) (f i : Nat) (arr : List α)
    (len : Nat) (v : α) (h : arr[i]? = some v) (hp : pred v = false) :
    goRemoveAux pred (f + 1) i arr len = goRemoveAux pred f (i + 1) arr len := by
  conv_lhs => unfold goRemoveAux
  rw [h]
  simp [hp]

theorem goRemoveAux_remove_step {α : Type} (pred : α → Bool) (f i : Nat) (arr : List α)
    (len : Nat) (v : α) (h : arr[i]? = some v) (hp : pred v = true) (hl : i < len) :
    goRemoveAux pred (f + 1) i arr len =
      goRemoveAux pred f (i + 1) (goShiftRemove arr i len) (len - 1) := by
  conv_lhs => unfold goRemoveAux
  rw [h]
  simp [hp, hl]

theorem goRemoveAux_panic_step {α : Type} (pred : α → Bool) (f i : Nat) (arr : List α)
    (len : Nat) (v : α) (h : arr[i]? = some v) (hp : pred v = true) (hl : len ≤ i) :
    goRemoveAux pred (f + 1) i arr len = none := by
  conv_lhs => unfold goRemoveAux
  rw [h]
  simp [hp]
  omega

theorem goRemoveAux_of_le {α : Type} (pred : α → Bool) (fuel i : Nat) (arr : List α)
    (len : Nat) (h : arr.length ≤ i) :
    goRemoveAux pred fuel i arr len = some (arr, len) := by
  cases fuel with
  | zero => rfl
  | succ f => exact goRemoveAux_none pred f i arr len (List.getElem?_eq_none h)

theorem goRemoveAux_clean {α : Type} (pred : α → Bool) :
    ∀ (fuel i : Nat) (arr : List α) (len : Nat),
      (∀ v ∈ arr.drop i, pred v = false) →
      goRemoveAux pred fuel i arr len = some (arr, len) := by
  intro fuel
  induction fuel with
  | zero => intro i arr len _; rfl
  | succ f ih =>
    intro i arr len hclean
    cases hget : arr[i]? with
    | none => exact goRemoveAux_none pred f i arr len hget
    | some v =>
      have h0 : (arr.drop i)[0]? = some v := by
        rw [List.getElem?_drop]; simpa using hget
      have hvmem : v ∈ arr.drop i := List.getElem?_mem h0
      rw [goRemoveAux_skip_step pred f i arr len v hget (hclean v hvmem)]
      apply ih
      intro w hw
      apply hclean
      have hsub : arr.drop (i + 1) ⊆ arr.drop i := by
        rw [← List.drop_drop]
        exact List.drop_subset _ _
      exact hsub hw

theorem goRemoveAux_skip_clean {α : Type} (pred : α → Bool) :
    ∀ (d : Nat) (fuel i : Nat) (arr : List α) (len : Nat),
      (∀ v ∈ (arr.drop i).take d, pred v = false) →
      goRemoveAux pred (d + fuel) i arr len = goRemoveAux pred fuel (i + d) arr len := by
  intro d
  induction d with
  | zero => intro fuel i arr len _; simp
  | succ d ih =>
    intro fuel i arr len hclean
    have hstep : d + 1 + fuel = (d + fuel) + 1 := by omega
    rw [hstep]
    cases hget : arr[i]? with
    | none =>
      have hle : arr.length ≤ i := by
        by_contra hlt
        push_neg at hlt
        rw [(List.getElem?_eq_some_getElem_iff arr i hlt).mpr trivial] at hget
        exact Option.noConfusion hget
      rw [goRemoveAux_none pred (d + fuel) i arr len hget,
        goRemoveAux_of_le pred fuel (i + (d + 1)) arr len (by omega)]
    | some v =>
      have hi : i < arr.length := by
        by_contra hlt
        push_neg at hlt
        rw [List.getElem?_eq_none hlt] at hget
        exact Option.noConfusion hget
      have h0 : ((arr.drop i).take (d + 1))[0]? = some v := by
        rw [List.getElem?_take_of_lt (by omega), List.getElem?_drop]
        simpa using hget
      have hvmem : v ∈ (arr.drop i).take (d + 1) := List.getElem?_mem h0
      rw [goRemoveAux_skip_step pred (d + fuel) i arr len v hget (hclean v hvmem)]
      have harith : i + (d + 1) = (i + 1) + d := by omega
      rw [harith]
      apply ih
      intro w hw
      apply hclean
      have hdrop : arr.drop i = v :: arr.drop (i + 1) := by
        have h1 := List.drop_eq_getElem_cons hi
        have h2 : arr[i] = v := by
          have h3 := (List.getElem?_eq_some_getElem_iff arr i hi).mpr trivial
          rw [hget] at h3
          exact (Option.some.injEq _ _).mp h3.symm
        rw [h1, h2]
      rw [hdrop, List.take_succ_cons]
      exact List.mem_cons_of_mem _ hw

end SqlBee

namespace SqlBee

theorem goRemovePass_clean {α : Type} (pred : α → Bool) (xs : List α)
    (h : ∀ v ∈ xs, pred v = false) : goRemovePass pred xs = some xs := by
  unfold goRemovePass
  rw [goRemoveAux_clean pred xs.length 0 xs xs.length (by simpa using h)]
  simp

theorem goRemovePass_single {α : Type} (pred : α → Bool) (ys zs : List α) (m : α)
    (hm : pred m = true) (hys : ∀ v ∈ ys, pred v = false)
    (hzs : ∀ v ∈ zs, pred v = false) :
    goRemovePass pred (ys ++ m :: zs) = some (ys ++ zs) := by
  unfold goRemovePass
  have hlen : (ys ++ m :: zs).length = ys.length + (zs.length + 1) := by
    simp [List.length_append]
  rw [hlen]
  rw [goRemoveAux_skip_clean pred ys.length (zs.length + 1) 0 (ys ++ m :: zs) _
    (by
      intro v hv
      apply hys
      rw [List.drop_zero, List.take_left ys (m :: zs)] at hv
      exact hv)]
  rw [Nat.zero_add]
  have hget : (ys ++ m :: zs)[ys.length]? = some m := by
    rw [List.getElem?_append_right (Nat.le_refl _)]
    simp
  rw [goRemoveAux_remove_step pred zs.length ys.length _ _ m hget hm (by omega)]
  have hshift : goShiftRemove (ys ++ m :: zs) ys.length (ys.length + (zs.length + 1)) =
      (ys ++ zs) ++ (m :: zs).drop zs.length := by
    unfold goShiftRemove
    rw [List.take_left ys (m :: zs)]
    have h1 : (ys ++ m :: zs).drop (ys.length + 1) = zs := by
      rw [List.drop_append]
      simp
    rw [h1]
    have h2 : ys.length + (zs.length + 1) - (ys.length + 1) = zs.length := by omega
    rw [h2, List.take_length]
    have h3 : ys.length + (zs.length + 1) - 1 = ys.length + zs.length := by omega
    rw [h3]
    have h4 : (ys ++ m :: zs).drop (ys.length + zs.length) = (m :: zs).drop zs.length :=
      List.drop_append zs.length
    rw [h4]
  rw [hshift]
  have hlen2 : ys.length + (zs.length + 1) - 1 = ys.length + zs.length := by omega
  rw [hlen2]
  have hfinal :
      goRemoveAux pred zs.length (ys.length + 1)
        ((ys ++ zs) ++ (m :: zs).drop zs.length) (ys.length + zs.length) =
      some ((ys ++ zs) ++ (m :: zs).drop zs.length, ys.length + zs.length) := by
    cases zs with
    | nil => rfl
    | cons z zs' =>
      apply goRemoveAux_clean
      intro v hv
      have hassoc : (ys ++ z :: zs') ++ (m :: z :: zs').drop (z :: zs').length =
          ys ++ ((z :: zs') ++ (m :: z :: zs').drop (z :: zs').length) := by
        rw [List.append_assoc]
      rw [hassoc] at hv
      have hd : (ys ++ ((z :: zs') ++ (m :: z :: zs').drop (z :: zs').length)).drop
          (ys.length + 1) = zs' ++ (m :: z :: zs').drop (z :: zs').length := by
        rw [List.drop_append]
        simp
      rw [hd] at hv
      rcases List.mem_append.mp hv with hv1 | hv2
      · exact hzs v (List.mem_cons_of_mem _ hv1)
      · have hdd : (m :: z :: zs').drop (z :: zs').length = (z :: zs').drop zs'.length := by
          simp [List.drop_succ_cons]
        rw [hdd] at hv2
        exact hzs v (List.drop_subset _ _ hv2)
  rw [hfinal]
  simp only [Option.map_some']
  congr 1
  exact List.take_left' (by simp [List.length_append])

theorem countP_eq_one_decomp {α : Type} (pred : α → Bool) :
    ∀ (xs : List α), xs.countP pred = 1 →
      ∃ ys m zs, xs = ys ++ m :: zs ∧ pred m = true ∧
        (∀ v ∈ ys, pred v = false) ∧ (∀ v ∈ zs, pred v = false) := by
  intro xs
  induction xs with
  | nil => intro h; simp [List.countP_nil] at h
  | cons x t ih =>
    intro h
    rw [List.countP_cons] at h
    by_cases hx : pred x = true
    · have ht : t.countP pred = 0 := by
        rw [hx] at h
        simp only [if_true] at h
        omega
      refine ⟨[], x, t, by simp, hx, by simp, ?_⟩
      intro v hv
      have := List.countP_eq_zero.mp ht v hv
      simpa using this
    · have hx' : pred x = false := by
        cases hpx : pred x with
        | true => exact absurd hpx hx
        | false => rfl
      rw [hx'] at h
      simp at h
      obtain ⟨ys, m, zs, hxs, hm, hys, hzs⟩ := ih h
      refine ⟨x :: ys, m, zs, by rw [hxs]; rfl, hm, ?_, hzs⟩
      intro v hv
      rcases List.mem_cons.mp hv with hv1 | hv2
      · rw [hv1]; exact hx'
      · exact hys v hv2

theorem goRemovePass_countP_le_one {α : Type} (pred : α → Bool) (xs : List α)
    (h : xs.countP pred ≤ 1) :
    goRemovePass pred xs = some (xs.filter fun v => !pred v) := by
  rcases Nat.lt_or_ge (xs.countP pred) 1 with h0 | h1
  · have hz : xs.countP pred = 0 := by omega
    have hclean : ∀ v ∈ xs, pred v = false := by
      intro v hv
      have := List.countP_eq_zero.mp hz v hv
      simpa using this
    rw [goRemovePass_clean pred xs hclean]
    rw [List.filter_eq_self.mpr (by intro a ha; simp [hclean a ha])]
  · have hone : xs.countP pred = 1 := by omega
    obtain ⟨ys, m, zs, hxs, hm, hys, hzs⟩ := countP_eq_one_decomp pred xs hone
    rw [hxs, goRemovePass_single pred ys zs m hm hys hzs]
    congr 1
    rw [List.filter_append, List.filter_cons]
    simp only [hm]
    rw [List.filter_eq_self.mpr (by intro a ha; simp [hys a ha]),
      List.filter_eq_self.mpr (by intro a ha; simp [hzs a ha])]
    simp

end SqlBee

namespace SqlBee

theorem foldl_removePasses (ps : List String) :
    ∀ (ops : List PatchOp),
      (∀ path ∈ ps, ops.countP (fun p => p.path == path) ≤ 1) →
      ps.foldl (fun acc path => acc.bind (goRemovePass (fun p => p.path == path)))
          (some ops) =
        some (ops.filter fun p => !(ps.contains p.path)) := by
  induction ps with
  | nil =>
    intro ops _
    simp [List.foldl_nil]
  | cons path rest ih =>
    intro ops h
    rw [List.foldl_cons]
    have h1 : ops.countP (fun p => p.path == path) ≤ 1 := h path (List.mem_cons_self _ _)
    have hpass := goRemovePass_countP_le_one (fun p => p.path == path) ops h1
    rw [show (some ops).bind (goRemovePass fun p => p.path == path) =
      goRemovePass (fun p => p.path == path) ops from rfl, hpass]
    have hcounts : ∀ q ∈ rest,
        (ops.filter fun p => !(p.path == path)).countP (fun p => p.path == q) ≤ 1 := by
      intro q hq
      calc (ops.filter fun p => !(p.path == path)).countP (fun p => p.path == q)
          ≤ ops.countP (fun p => p.path == q) :=
            List.Sublist.countP_le _ (List.filter_sublist ops)
        _ ≤ 1 := h q (List.mem_cons_of_mem _ hq)
    rw [ih _ hcounts]
    congr 1
    rw [List.filter_filter]
    apply List.filter_congr
    intro p _
    simp only [List.contains_cons, Bool.not_or, Bool.and_comm]

theorem filterPatchOps_of_counts (ops : List PatchOp)
    (h : ∀ path ∈ ignoredPatchPaths, ops.countP (fun p => p.path == path) ≤ 1) :
    filterPatchOps ops =
      some (ops.filter fun p => !(ignoredPatchPaths.contains p.path)) :=
  foldl_removePasses ignoredPatchPaths ops h

theorem CreatePatch_nil_diff : CreatePatch [] = some none := rfl

theorem CreatePatch_of_counts (ops : List PatchOp) (hne : ops ≠ [])
    (h : ∀ path ∈ ignoredPatchPaths, ops.countP (fun p => p.path == path) ≤ 1) :
    CreatePatch ops =
      some (some (ops.filter fun p => !(ignoredPatchPaths.contains p.path))) := by
  unfold CreatePatch
  rw [if_pos (by cases ops with | nil => exact absurd rfl hne | cons a t => simp)]
  rw [filterPatchOps_of_counts ops h]
  rfl

theorem CreatePatch_eq_none_iff (rawDiff : List PatchOp) :
    CreatePatch rawDiff = some none ↔ rawDiff = [] := by
  constructor
  · intro h
    cases rawDiff with
    | nil => rfl
    | cons a t =>
      exfalso
      unfold CreatePatch at h
      rw [if_pos (by simp)] at h
      cases hf : filterPatchOps (a :: t) with
      | none => rw [hf] at h; exact Option.noConfusion h
      | some ops =>
        rw [hf] at h
        simp only [Option.map_some'] at h
        exact Option.noConfusion ((Option.some.injEq _ _).mp h)
  · intro h
    rw [h]
    rfl

theorem marshalPatch_valid (ops : List PatchOp) :
    isValidPatchDoc (marshalPatch ops) = true := by
  unfold marshalPatch isValidPatchDoc
  rw [List.all_eq_true]
  intro x hx
  obtain ⟨p, _, hp⟩ := List.mem_map.mp hx
  rw [← hp]
  cases hop : p.op with
  | add =>
    simp [marshalPatchOp, hop, isValidPatchOperation, List.lookup, isRFC6902OpName,
      patchOpName]
  | remove =>
    simp [marshalPatchOp, hop, isValidPatchOperation, List.lookup, isRFC6902OpName,
      patchOpName]
  | replace =>
    simp [marshalPatchOp, hop, isValidPatchOperation, List.lookup, isRFC6902OpName,
      patchOpName]

end SqlBee

namespace SqlBee

theorem decodeAs_unsupported (raw : RawObject) :
    decodeAs ResourceKind.unsupported raw = none := by
  cases raw <;> rfl

theorem annotationHasValue_iff (ann : List (String × String)) (key val : String) :
    AnnotationHasValue ann key val = true ↔ ann.lookup key = some val := by
  unfold AnnotationHasValue
  cases h : ann.lookup key with
  | none => simp
  | some v => simp [beq_iff_eq]

theorem mutateOutcome_decoded (opts : Options) (req : AdmissionRequest) (obj : KubeObject)
    (hns : ignoredNamespaces.contains req.reqNamespace = false)
    (hdec : decodeAs (classifyResource req.resource) req.object = some obj) :
    mutateOutcome opts req =
      if gateSkips opts obj.annotations then Outcome.gateSkipped
      else postGate opts obj := by
  have hcl : ¬(classifyResource req.resource = ResourceKind.unsupported) := by
    intro hc
    rw [hc, decodeAs_unsupported] at hdec
    exact Option.noConfusion hdec
  unfold mutateOutcome
  rw [hns]
  simp only [Bool.false_eq_true, if_false]
  rw [if_neg hcl, hdec]

/-- C5: every admission review whose request namespace is in the fixed
system/public exclusion set is allowed with no patch and no patch type,
for any resource descriptor, payload and options — the namespace check is
the first thing `Mutate` does, before decoding or annotations. -/
theorem mutate_ignores_system_namespaces (diffFn : DiffFn) (opts : Options)
    (req : AdmissionRequest) (h : req.reqNamespace ∈ ignoredNamespaces) :
    Mutate diffFn opts req = some allowedNoPatch ∧
      mutateOutcome opts req = Outcome.ignoredNamespace ∧
      allowedNoPatch.allowed = true ∧ allowedNoPatch.patch = none ∧
      allowedNoPatch.patchTypeSet = false := by
  have hc : ignoredNamespaces.contains req.reqNamespace = true :=
    List.elem_eq_true_of_mem h
  have hout : mutateOutcome opts req = Outcome.ignoredNamespace := by
    unfold mutateOutcome
    rw [hc]
    rfl
  refine ⟨?_, hout, rfl, rfl, rfl⟩
  unfold Mutate
  rw [hout]
  rfl

theorem mutate_ignores_system_namespaces_witness :
    Mutate singleAddDiff instanceOnlyOpts
        { reqNamespace := "kube-system",
          resource := { group := "weird", version := "v0", resource := "gadgets" },
          object := RawObject.malformed } =
      some allowedNoPatch :=
  (mutate_ignores_system_namespaces singleAddDiff instanceOnlyOpts
    { reqNamespace := "kube-system",
      resource := { group := "weird", version := "v0", resource := "gadgets" },
      object := RawObject.malformed }
    (by decide)).1

/-- C7: `Mutate` treats a request as a pod exactly when its
group/version/resource equals `("", "v1", "pods")`, otherwise as a
deployment exactly when the resource name is `"deployments"`, and rejects
every other descriptor with the `Wrong resource type` message and no
patch. -/
theorem mutate_resource_dispatch (gvr : GroupVersionResource) :
    (classifyResource gvr = ResourceKind.pod ↔
      gvr = { group := "", version := "v1", resource := "pods" }) ∧
    (classifyResource gvr = ResourceKind.deployment ↔
      (gvr ≠ podResource ∧ gvr.resource = "deployments")) ∧
    (classifyResource gvr = ResourceKind.unsupported →
      ∀ (diffFn : DiffFn) (opts : Options) (req : AdmissionRequest),
        req.resource = gvr →
        ignoredNamespaces.contains req.reqNamespace = false →
        Mutate diffFn opts req = some (ToAdmissionResponse WrongResourceErrorMsg) ∧
        (ToAdmissionResponse WrongResourceErrorMsg).allowed = false ∧
        (ToAdmissionResponse WrongResourceErrorMsg).message = some "Wrong resource type" ∧
        (ToAdmissionResponse WrongResourceErrorMsg).patch = none) := by
  refine ⟨?_, ?_, ?_⟩
  · unfold classifyResource
    by_cases h : gvr = podResource
    · simp [h, podResource]
    · rw [if_neg h]
      constructor
      · intro hc
        by_cases h2 : gvr.resource = "deployments"
        · rw [if_pos h2] at hc; exact ResourceKind.noConfusion hc
        · rw [if_neg h2] at hc; exact ResourceKind.noConfusion hc
      · intro he
        exact absurd he (by simpa [podResource] using h)
  · unfold classifyResource
    by_cases h : gvr = podResource
    · simp [h]
    · rw [if_neg h]
      by_cases h2 : gvr.resource = "deployments"
      · simp [h2, h]
      · simp [h2, h]
  · intro hc diffFn opts req hres hns
    have hout : mutateOutcome opts req = Outcome.wrongResource := by
      unfold mutateOutcome
      rw [hns]
      simp only [Bool.false_eq_true, if_false]
      rw [hres, hc]
      rfl
    refine ⟨?_, rfl, rfl, rfl⟩
    unfold Mutate
    rw [hout]
    rfl

theorem mutate_resource_dispatch_witness :
    Mutate singleAddDiff instanceOnlyOpts
        { reqNamespace := "default",
          resource := { group := "batch", version := "v1", resource := "jobs" },
          object := RawObject.malformed } =
      some (ToAdmissionResponse WrongResourceErrorMsg) :=
  ((mutate_resource_dispatch
      { group := "batch", version := "v1", resource := "jobs" }).2.2
    (by decide) singleAddDiff instanceOnlyOpts
    { reqNamespace := "default",
      resource := { group := "batch", version := "v1", resource := "jobs" },
      object := RawObject.malformed }
    rfl (by decide)).1

/-- C1 (claim refuted by evaluation): `mutatePodSpec` does not keep the
sidecar container and its reserved volume names unique.  With the
credential secret configured, mutating a pod spec that already holds the
`cloudsql` and `sql-service-token-account` volumes adjacently leaves the
stale token volume in place and appends a second one, so that reserved
name occurs twice; with the two reserved volumes at the end of the list
the remove-while-ranging loop panics; and a spec with one name-matching
and one image-matching container keeps two sidecar-matching containers. -/
theorem mutatePodSpec_uniqueness_violations :
    ((mutatePodSpec dupDemoSidecar.2 dupDemoSidecar.1 dupDemoPodSpec).map fun res =>
        (res.volumes.filter fun v => v.name == "sql-service-token-account").length) =
      some 2 ∧
    mutatePodSpec dupDemoSidecar.2 dupDemoSidecar.1 panicDemoPodSpec = none ∧
    ((mutatePodSpec sqlProxyVolumes sqlProxyContainer
        { containers := twoMatchContainers, volumes := [] }).map fun res =>
        (res.containers.filter fun c =>
          c.image == sqlProxyContainer.image || c.name == sqlProxyContainer.name).length) =
      some 2 := by
  refine ⟨by decide, by decide, by decide⟩

end SqlBee

namespace SqlBee

/-- C4: for a successfully decoded resource in a non-excluded namespace,
the annotation gate allows without patch exactly as the code's condition
says: with `RequireAnnotation` the gate passes iff the inject annotation is
present and exactly `"true"`; without it the gate skips iff the annotation
is present and exactly `"false"`; whenever the gate does not skip, `Mutate`
proceeds to the instance-validation/mutation stages. -/
theorem mutate_annotation_gate (diffFn : DiffFn) (opts : Options)
    (req : AdmissionRequest) (obj : KubeObject)
    (hns : ignoredNamespaces.contains req.reqNamespace = false)
    (hdec : decodeAs (classifyResource req.resource) req.object = some obj) :
    (gateSkips opts obj.annotations = true →
      Mutate diffFn opts req = some allowedNoPatch) ∧
    (gateSkips opts obj.annotations = false →
      mutateOutcome opts req = postGate opts obj) ∧
    (opts.RequireAnnotation = true →
      (gateSkips opts obj.annotations = false ↔
        obj.annotations.lookup annotationInject = some "true")) ∧
    (opts.RequireAnnotation = false →
      (gateSkips opts obj.annotations = true ↔
        obj.annotations.lookup annotationInject = some "false")) := by
  have hout := mutateOutcome_decoded opts req obj hns hdec
  refine ⟨?_, ?_, ?_, ?_⟩
  · intro hg
    unfold Mutate
    rw [hout, if_pos hg]
    rfl
  · intro hg
    rw [hout, if_neg (by rw [hg]; exact Bool.false_ne_true)]
  · intro hreq
    unfold gateSkips
    rw [hreq]
    simp only [Bool.true_and, Bool.not_true, Bool.false_and, Bool.or_false]
    rw [← annotationHasValue_iff]
    constructor
    · intro h
      cases hv : AnnotationHasValue obj.annotations annotationInject "true" with
      | true => rfl
      | false => rw [hv] at h; simp at h
    · intro h
      rw [h]
      rfl
  · intro hreq
    unfold gateSkips
    rw [hreq]
    simp only [Bool.false_and, Bool.false_or, Bool.not_false, Bool.true_and]
    exact annotationHasValue_iff obj.annotations annotationInject "false"

theorem mutate_annotation_gate_witness :
    Mutate singleAddDiff instanceOnlyOpts
        { reqNamespace := "default", resource := podResource,
          object := RawObject.podRaw
            { annotations := [(annotationInject, "false")],
              spec := { containers := [], volumes := [] } } } =
      some allowedNoPatch :=
  (mutate_annotation_gate singleAddDiff instanceOnlyOpts
    { reqNamespace := "default", resource := podResource,
      object := RawObject.podRaw
        { annotations := [(annotationInject, "false")],
          spec := { containers := [], volumes := [] } } }
    { annotations := [(annotationInject, "false")],
      spec := { containers := [], volumes := [] } }
    (by decide) rfl).1 (by decide)

theorem mutate_noInstance_aux (diffFn : DiffFn) (opts : Options)
    (req : AdmissionRequest) (obj : KubeObject)
    (hns : ignoredNamespaces.contains req.reqNamespace = false)
    (hdec : decodeAs (classifyResource req.resource) req.object = some obj)
    (hgate : gateSkips opts obj.annotations = false)
    (hinst : AnnotationValue obj.annotations annotationInstance [opts.DefaultInstance] = "") :
    Mutate diffFn opts req = some (ToAdmissionResponse instanceErrorMsg) := by
  have hout := mutateOutcome_decoded opts req obj hns hdec
  have hpost : postGate opts obj = Outcome.noInstance := by
    unfold postGate
    rw [if_pos hinst]
  unfold Mutate
  rw [hout, if_neg (by rw [hgate]; exact Bool.false_ne_true), hpost]
  rfl

/-- C6: when the resolved instance string is empty, `Mutate` rejects: the
response has `Allowed = false`, carries the non-empty misconfiguration
message, and sets neither patch bytes nor patch type. -/
theorem mutate_rejects_unresolvable_instance (diffFn : DiffFn) (opts : Options)
    (req : AdmissionRequest) (obj : KubeObject)
    (hns : ignoredNamespaces.contains req.reqNamespace = false)
    (hdec : decodeAs (classifyResource req.resource) req.object = some obj)
    (hgate : gateSkips opts obj.annotations = false)
    (hinst : AnnotationValue obj.annotations annotationInstance [opts.DefaultInstance] = "") :
    Mutate diffFn opts req = some (ToAdmissionResponse instanceErrorMsg) ∧
    (ToAdmissionResponse instanceErrorMsg).allowed = false ∧
    (ToAdmissionResponse instanceErrorMsg).message = some instanceErrorMsg ∧
    instanceErrorMsg ≠ "" ∧
    (ToAdmissionResponse instanceErrorMsg).patch = none ∧
    (ToAdmissionResponse instanceErrorMsg).patchTypeSet = false :=
  ⟨mutate_noInstance_aux diffFn opts req obj hns hdec hgate hinst,
    rfl, rfl, by decide, rfl, rfl⟩

theorem mutate_rejects_unresolvable_instance_witness :
    Mutate singleAddDiff
        { DefaultInstance := "", DefaultSecretName := "", DefaultCertVolume := "",
          RequireAnnotation := false }
        { reqNamespace := "default", resource := podResource,
          object := RawObject.podRaw
            { annotations := [], spec := { containers := [], volumes := [] } } } =
      some (ToAdmissionResponse instanceErrorMsg) :=
  (mutate_rejects_unresolvable_instance singleAddDiff
    { DefaultInstance := "", DefaultSecretName := "", DefaultCertVolume := "",
      RequireAnnotation := false }
    { reqNamespace := "default", resource := podResource,
      object := RawObject.podRaw
        { annotations := [], spec := { containers := [], volumes := [] } } }
    { annotations := [], spec := { containers := [], volumes := [] } }
    (by decide) rfl (by decide) (by decide)).1

/-- C10: an annotation present with the empty string as its value is
returned as the empty string by `AnnotationValue` rather than replaced by
the default, so a resource carrying the instance annotation with value
`""` is rejected by `Mutate` even when a non-empty `DefaultInstance` is
configured. -/
theorem annotationValue_empty_beats_default :
    (∀ (ann : List (String × String)) (key dflt : String),
      ann.lookup key = some "" → AnnotationValue ann key [dflt] = "") ∧
    (∀ (diffFn : DiffFn) (opts : Options) (req : AdmissionRequest) (obj : KubeObject),
      ignoredNamespaces.contains req.reqNamespace = false →
      decodeAs (classifyResource req.resource) req.object = some obj →
      gateSkips opts obj.annotations = false →
      obj.annotations.lookup annotationInstance = some "" →
      Mutate diffFn opts req = some (ToAdmissionResponse instanceErrorMsg)) := by
  have hval : ∀ (ann : List (String × String)) (key dflt : String),
      ann.lookup key = some "" → AnnotationValue ann key [dflt] = "" := by
    intro ann key dflt h
    unfold AnnotationValue
    rw [h]
  refine ⟨hval, ?_⟩
  intro diffFn opts req obj hns hdec hgate hinst
  exact mutate_noInstance_aux diffFn opts req obj hns hdec hgate
    (hval obj.annotations annotationInstance opts.DefaultInstance hinst)

theorem annotationValue_empty_beats_default_witness :
    AnnotationValue [(annotationInstance, "")] annotationInstance ["proj:region:db"] = "" ∧
    Mutate singleAddDiff instanceOnlyOpts
        { reqNamespace := "default", resource := podResource,
          object := RawObject.podRaw
            { annotations := [(annotationInstance, "")],
              spec := { containers := [], volumes := [] } } } =
      some (ToAdmissionResponse instanceErrorMsg) :=
  ⟨annotationValue_empty_beats_default.1 [(annotationInstance, "")] annotationInstance
      "proj:region:db" rfl,
   annotationValue_empty_beats_default.2 singleAddDiff instanceOnlyOpts
    { reqNamespace := "default", resource := podResource,
      object := RawObject.podRaw
        { annotations := [(annotationInstance, "")],
          spec := { containers := [], volumes := [] } } }
    { annotations := [(annotationInstance, "")],
      spec := { containers := [], volumes := [] } }
    (by decide) rfl (by decide) rfl⟩

end SqlBee


namespace SqlBee

theorem renderOutcome_mutated (diffFn : DiffFn) (req : AdmissionRequest)
    (obj : KubeObject) (mutatedSpec : PodSpec) :
    renderOutcome diffFn req (Outcome.mutated obj mutatedSpec) =
      match CreatePatch (diffFn req.object obj) with
      | none => none
      | some none => some allowedNoPatch
      | some (some ops) => some (mkPatchResponse ops) := rfl

/-- C2: whenever `Mutate` answers with `Allowed = true` and patch bytes set
(under the RFC 6902 contract of the external diff library, whose output
contains each denylisted path at most once), the marshalled patch is a
syntactically valid JSON Patch document and none of its operations targets
a denylisted path.  Several denylisted operations, adjacent included, are
covered: distinct denylisted paths may sit next to each other in the
diff. -/
theorem mutate_patch_valid_and_denylist_free (diffFn : DiffFn) (opts : Options)
    (req : AdmissionRequest) (resp : AdmissionResponse) (ops : List PatchOp)
    (hdiff : ∀ (raw : RawObject) (obj : KubeObject), ∀ path ∈ ignoredPatchPaths,
      ((diffFn raw obj).countP fun p => p.path == path) ≤ 1)
    (hm : Mutate diffFn opts req = some resp)
    (_hallowed : resp.allowed = true)
    (hpatch : resp.patch = some ops) :
    isValidPatchDoc (marshalPatch ops) = true ∧
      ∀ op ∈ ops, op.path ∉ ignoredPatchPaths := by
  unfold Mutate at hm
  cases hout : mutateOutcome opts req with
  | ignoredNamespace =>
    rw [hout] at hm
    have hresp : resp = allowedNoPatch := by simpa [renderOutcome] using hm.symm
    rw [hresp] at hpatch
    exact Option.noConfusion hpatch
  | wrongResource =>
    rw [hout] at hm
    have hresp : resp = ToAdmissionResponse WrongResourceErrorMsg := by
      simpa [renderOutcome] using hm.symm
    rw [hresp] at hpatch
    exact Option.noConfusion hpatch
  | decodeFailed =>
    rw [hout] at hm
    have hresp : resp = ToAdmissionResponse decodeErrorMsg := by
      simpa [renderOutcome] using hm.symm
    rw [hresp] at hpatch
    exact Option.noConfusion hpatch
  | gateSkipped =>
    rw [hout] at hm
    have hresp : resp = allowedNoPatch := by simpa [renderOutcome] using hm.symm
    rw [hresp] at hpatch
    exact Option.noConfusion hpatch
  | noInstance =>
    rw [hout] at hm
    have hresp : resp = ToAdmissionResponse instanceErrorMsg := by
      simpa [renderOutcome] using hm.symm
    rw [hresp] at hpatch
    exact Option.noConfusion hpatch
  | panicked =>
    rw [hout] at hm
    exact Option.noConfusion hm
  | mutated obj mutatedSpec =>
    rw [hout, renderOutcome_mutated] at hm
    cases hd : diffFn req.object obj with
    | nil =>
      rw [hd, CreatePatch_nil_diff] at hm
      have hresp : resp = allowedNoPatch := by simpa using hm.symm
      rw [hresp] at hpatch
      exact Option.noConfusion hpatch
    | cons a t =>
      have hcp := CreatePatch_of_counts (a :: t) (by simp)
        (by rw [← hd]; exact hdiff req.object obj)
      rw [hd, hcp] at hm
      simp only [Option.some.injEq] at hm
      have hops : ops = (a :: t).filter fun p => !(ignoredPatchPaths.contains p.path) := by
        rw [← hm] at hpatch
        simpa [mkPatchResponse] using hpatch.symm
      constructor
      · exact marshalPatch_valid ops
      · intro op hop
        rw [hops] at hop
        have hkeep := List.of_mem_filter hop
        intro hmem
        have hcont : ignoredPatchPaths.contains op.path = true :=
          List.elem_eq_true_of_mem hmem
        rw [hcont] at hkeep
        exact Bool.noConfusion hkeep

theorem mutate_patch_valid_and_denylist_free_witness :
    isValidPatchDoc (marshalPatch [addContainerOp]) = true ∧
      ∀ op ∈ [addContainerOp], op.path ∉ ignoredPatchPaths :=
  mutate_patch_valid_and_denylist_free singleAddDiff instanceOnlyOpts defaultPodRequest
    (mkPatchResponse [addContainerOp]) [addContainerOp]
    (fun r o =>
      show ∀ path ∈ ignoredPatchPaths,
          (([addContainerOp]).countP fun p => p.path == path) ≤ 1 by decide)
    rfl rfl rfl

/-- C3 is refuted: a non-empty diff consisting solely of the denylisted
`/status` operation makes `CreatePatch` return the marshalled empty patch
document (two bytes, not nil) with no error, and `Mutate` then sets both
`Patch` and `PatchType`. -/
theorem createPatch_all_denylisted_not_nil :
    CreatePatch [statusPatchOp] = some (some []) ∧
    Mutate onlyStatusDiff instanceOnlyOpts defaultPodRequest =
      some (mkPatchResponse []) := by
  constructor
  · rfl
  · rfl

/-- C3 as amended: `CreatePatch` returns nil bytes and no error exactly
when the *unfiltered* diff is empty, in which case `Mutate` sets neither
`Patch` nor `PatchType`; when the diff is non-empty but every operation is
denylisted, `CreatePatch` returns the marshalled empty patch document with
no error and `Mutate` sets `Patch` to it and `PatchType` to JSONPatch. -/
theorem createPatch_nil_iff_empty_diff (diffFn : DiffFn) (opts : Options)
    (req : AdmissionRequest) (obj : KubeObject) (mutatedSpec : PodSpec)
    (hout : mutateOutcome opts req = Outcome.mutated obj mutatedSpec) :
    (∀ rawDiff : List PatchOp, CreatePatch rawDiff = some none ↔ rawDiff = []) ∧
    (diffFn req.object obj = [] → Mutate diffFn opts req = some allowedNoPatch) ∧
    ((∀ path ∈ ignoredPatchPaths,
        ((diffFn req.object obj).countP fun p => p.path == path) ≤ 1) →
      (∀ p ∈ diffFn req.object obj, ignoredPatchPaths.contains p.path = true) →
      diffFn req.object obj ≠ [] →
      Mutate diffFn opts req = some (mkPatchResponse [])) := by
  refine ⟨CreatePatch_eq_none_iff, ?_, ?_⟩
  · intro hd
    unfold Mutate
    rw [hout, renderOutcome_mutated, hd, CreatePatch_nil_diff]
  · intro hcounts hdeny hne
    have hfilter : ((diffFn req.object obj).filter
        fun p => !(ignoredPatchPaths.contains p.path)) = [] := by
      rw [List.filter_eq_nil_iff]
      intro p hp
      rw [hdeny p hp]
      simp
    have hcp := CreatePatch_of_counts (diffFn req.object obj) hne hcounts
    rw [hfilter] at hcp
    unfold Mutate
    rw [hout, renderOutcome_mutated, hcp]

theorem createPatch_nil_iff_empty_diff_witness :
    (CreatePatch [] = some none ↔ ([] : List PatchOp) = []) ∧
    Mutate onlyStatusDiff instanceOnlyOpts defaultPodRequest =
      some (mkPatchResponse []) := by
  have h := createPatch_nil_iff_empty_diff onlyStatusDiff instanceOnlyOpts
    defaultPodRequest statusDemoMutatedObj statusDemoMutatedSpec (by decide)
  refine ⟨h.1 [], h.2.2 ?_ ?_ (List.cons_ne_nil _ _)⟩
  · show ∀ path ∈ ignoredPatchPaths,
        (([statusPatchOp]).countP fun p => p.path == path) ≤ 1
    decide
  · show ∀ p ∈ [statusPatchOp], ignoredPatchPaths.contains p.path = true
    intro p hp
    rw [List.mem_singleton.mp hp]
    decide

end SqlBee

namespace SqlBee

/-- C8: `AnnotationValue` returns the annotation's value whenever the key
is present and the default otherwise, and the sidecar builder uses the
resolved values: the built container's image is the resolved image, its
final command argument interpolates the resolved instance, and a resolved
non-empty secret or CA config-map name puts the corresponding volume into
the built volume set. -/
theorem annotationValue_precedence (ann : List (String × String)) (key dflt : String)
    (opts : Options) :
    ((∀ v, ann.lookup key = some v → AnnotationValue ann key [dflt] = v) ∧
      (ann.lookup key = none → AnnotationValue ann key [dflt] = dflt)) ∧
    (configureContainerAndVolumes ann sqlProxyContainer sqlProxyVolumes opts).1.image =
      AnnotationValue ann annotationImage [defaultImage] ∧
    (configureContainerAndVolumes ann sqlProxyContainer
        sqlProxyVolumes opts).1.command.getLast? =
      some ("-instances=" ++ AnnotationValue ann annotationInstance [opts.DefaultInstance] ++
        "=tcp:127.0.0.1:3306") ∧
    (AnnotationValue ann annotationSecret [opts.DefaultSecretName] ≠ "" →
      { credentialsVolume with
          source := VolumeSource.secret (AnnotationValue ann annotationSecret
            [opts.DefaultSecretName]) } ∈
        (configureContainerAndVolumes ann sqlProxyContainer sqlProxyVolumes opts).2) ∧
    (AnnotationValue ann annotationCaMap [opts.DefaultCertVolume] ≠ "" →
      { caCertVolume with
          source := VolumeSource.configMap (AnnotationValue ann annotationCaMap
            [opts.DefaultCertVolume]) } ∈
        (configureContainerAndVolumes ann sqlProxyContainer sqlProxyVolumes opts).2) := by
  refine ⟨⟨?_, ?_⟩, ?_, ?_, ?_, ?_⟩
  · intro v hv
    unfold AnnotationValue
    rw [hv]
  · intro hv
    unfold AnnotationValue
    rw [hv]
  · by_cases hsec : AnnotationValue ann annotationSecret [opts.DefaultSecretName] = "" <;>
      by_cases hca : AnnotationValue ann annotationCaMap [opts.DefaultCertVolume] = "" <;>
      simp [configureContainerAndVolumes, hsec, hca]
  · by_cases hsec : AnnotationValue ann annotationSecret [opts.DefaultSecretName] = "" <;>
      by_cases hca : AnnotationValue ann annotationCaMap [opts.DefaultCertVolume] = "" <;>
      simp [configureContainerAndVolumes, hsec, hca, List.getLast?_concat]
  · intro hsec
    by_cases hca : AnnotationValue ann annotationCaMap [opts.DefaultCertVolume] = "" <;>
      simp [configureContainerAndVolumes, hsec, hca]
  · intro hca
    by_cases hsec : AnnotationValue ann annotationSecret [opts.DefaultSecretName] = "" <;>
      simp [configureContainerAndVolumes, hsec, hca]

theorem annotationValue_precedence_witness :
    AnnotationValue [(annotationSecret, "team-secret")] annotationSecret ["fallback"] =
      "team-secret" ∧
    { credentialsVolume with source := VolumeSource.secret "team-secret" } ∈
      (configureContainerAndVolumes [(annotationSecret, "team-secret")] sqlProxyContainer
        sqlProxyVolumes instanceOnlyOpts).2 := by
  have h := annotationValue_precedence [(annotationSecret, "team-secret")]
    annotationSecret "fallback" instanceOnlyOpts
  refine ⟨h.1.1 "team-secret" rfl, ?_⟩
  have hmem := h.2.2.2.1 (by decide)
  simpa using hmem

/-- C9 is refuted at the patch level: with the diff the repository's own
test fixture records for this pipeline, `Mutate` on the bare-pod scenario
returns an allowed response whose patch removes `/spec/containers/0` — the
pre-existing application container, not the sidecar — and re-adds it, so
the patch does remove and re-add another container. -/
theorem barePod_patch_rewrites_existing_container :
    Mutate fixtureBarePodDiff barePodOpts barePodRequest =
      some (mkPatchResponse fixturePodPatchOps) ∧
    fixturePodPatchOps.map (fun p => (p.op, p.path)) =
      [(PatchOpKind.add, "/spec/volumes/1"),
       (PatchOpKind.remove, "/spec/containers/0"),
       (PatchOpKind.add, "/spec/containers/0"),
       (PatchOpKind.add, "/spec/containers/1")] ∧
    (fixturePodPatchOps.filter fun p => p.path == "/spec/containers/0").length = 2 := by
  refine ⟨rfl, by decide, by decide⟩

/-- C9 as amended: the bare pod with `inject=true`, no credential or CA
overrides and default instance `proj:region:instance` is mutated by
appending exactly one `cloudsql` scratch volume and exactly one sidecar
container whose command ends in the instance flag, leaving all other
containers and volumes of the pod spec in place; the admission response is
allowed and carries a patch.  The patch's operations may additionally
rewrite pre-existing containers in place (remove and re-add them with
serializer-defaulted fields), as the recorded diff does for
`/spec/containers/0`. -/
theorem barePod_end_to_end :
    mutateOutcome barePodOpts barePodRequest =
      Outcome.mutated expectedMutatedObj expectedMutatedSpec ∧
    expectedMutatedSpec.containers = barePod.spec.containers ++ [expectedSidecar] ∧
    expectedMutatedSpec.volumes =
      barePod.spec.volumes ++ [{ name := "cloudsql", source := VolumeSource.emptyDir }] ∧
    expectedSidecar.command =
      ["/cloud_sql_proxy", "-dir=/cloudsql",
        "-instances=proj:region:instance=tcp:127.0.0.1:3306"] ∧
    expectedSidecar.command.getLast? =
      some "-instances=proj:region:instance=tcp:127.0.0.1:3306" ∧
    (∀ diffFn : DiffFn,
      (∀ path ∈ ignoredPatchPaths,
        ((diffFn barePodRequest.object expectedMutatedObj).countP
          fun p => p.path == path) ≤ 1) →
      (∃ op ∈ diffFn barePodRequest.object expectedMutatedObj,
        ignoredPatchPaths.contains op.path = false) →
      ∃ ops, Mutate diffFn barePodOpts barePodRequest = some (mkPatchResponse ops) ∧
        ops ≠ []) := by
  refine ⟨by decide, by decide, by decide, by decide, by decide, ?_⟩
  intro diffFn hcounts hop
  obtain ⟨op, hopmem, hopok⟩ := hop
  have hne : diffFn barePodRequest.object expectedMutatedObj ≠ [] := by
    intro h
    rw [h] at hopmem
    exact absurd hopmem (List.not_mem_nil op)
  have hcp := CreatePatch_of_counts _ hne hcounts
  refine ⟨(diffFn barePodRequest.object expectedMutatedObj).filter
    (fun p => !(ignoredPatchPaths.contains p.path)), ?_, ?_⟩
  · unfold Mutate
    rw [show mutateOutcome barePodOpts barePodRequest =
      Outcome.mutated expectedMutatedObj expectedMutatedSpec from by decide]
    rw [renderOutcome_mutated, hcp]
  · apply List.ne_nil_of_mem (a := op)
    apply List.mem_filter.mpr
    exact ⟨hopmem, by rw [hopok]; rfl⟩

theorem barePod_end_to_end_witness :
    ∃ ops, Mutate singleAddDiff barePodOpts barePodRequest = some (mkPatchResponse ops) ∧
      ops ≠ [] :=
  barePod_end_to_end.2.2.2.2.2 singleAddDiff
    (show ∀ path ∈ ignoredPatchPaths,
        (([addContainerOp]).countP fun p => p.path == path) ≤ 1 by decide)
    ⟨addContainerOp, List.mem_singleton_self _, by decide⟩

end SqlBee
